import Mathlib

set_option maxHeartbeats 1000000

/-!
Shallow embedding of the nse_trader technical-analysis and backtesting
subsystem.  Python floats are modelled as exact rationals; quantities that
are irrational in exact arithmetic (standard deviations) live in the reals.
A Python exception is modelled as `Except.error ()`, Python `None` as
`Option.none`.
-/

/-- Successive differences of a list, as `np.diff`: the i-th entry is
`xs (i+1) - xs i`; the result is one shorter than the input. -/
def diffs (xs : List ℚ) : List ℚ :=
  List.zipWith (fun a b => a - b) (xs.drop 1) xs

/-- The last `n` elements of a list, as the Python slice `xs[-n:]`
(for `1 ≤ n ≤ len xs`). -/
def lastWindow (xs : List ℚ) (n : ℕ) : List ℚ :=
  xs.drop (xs.length - n)

/-- Population variance of a list (divisor `n`): the mean of the squared
deviations from the mean.  This is what `np.std` takes the square root of
(its default `ddof=0`); it is `0` on the empty list. -/
def popVar (xs : List ℚ) : ℚ :=
  let m := xs.sum / (xs.length : ℚ)
  (xs.map (fun x => (x - m) ^ 2)).sum / (xs.length : ℚ)

/-- Sample variance of a list (divisor `n - 1`): what pandas
`rolling(...).std()` takes the square root of (its default `ddof=1`). -/
def sampleVar (xs : List ℚ) : ℚ :=
  let m := xs.sum / (xs.length : ℚ)
  (xs.map (fun x => (x - m) ^ 2)).sum / ((xs.length : ℚ) - 1)

/-- Arithmetic mean of the last `n` elements, written spec-style via
`reverse`/`take` (used to compare against the rolling-mean embedding). -/
def arithMeanLast (xs : List ℚ) (n : ℕ) : ℚ :=
  ((xs.reverse.take n).sum) / (n : ℚ)

/-! ## technical_analysis.py : TechnicalAnalyzer -/

/-- Wilder smoothing loop of `calculate_rsi`: starting from an initial
average, folds `avg = (avg * (period - 1) + g) / period` over the remaining
gain (resp. loss) entries. -/
def wilderSmooth (period : ℕ) (a0 : ℚ) (l : List ℚ) : ℚ :=
  l.foldl (fun acc g => (acc * ((period : ℚ) - 1) + g) / (period : ℚ)) a0

/-- The pair (avg_gain, avg_loss) computed by `calculate_rsi` on the
sufficient-data path: simple means of the first `period` gains/losses,
then the Wilder smoothing loop over the remaining deltas. -/
def rsi_avgs (prices : List ℚ) (period : ℕ) : ℚ × ℚ :=
  let deltas := diffs prices
  let gains := deltas.map (fun d => if 0 < d then d else 0)
  let losses := deltas.map (fun d => if d < 0 then -d else 0)
  let avg_gain := (gains.take period).sum / (period : ℚ)
  let avg_loss := (losses.take period).sum / (period : ℚ)
  (wilderSmooth period avg_gain (gains.drop period),
   wilderSmooth period avg_loss (losses.drop period))

/-- `TechnicalAnalyzer.calculate_rsi` of technical_analysis.py: neutral 50
when fewer than `period + 1` prices exist, 100 when the smoothed average
loss is zero, otherwise `100 - 100 / (1 + avg_gain / avg_loss)`. -/
def calculate_rsi (prices : List ℚ) (period : ℕ) : ℚ :=
  if prices.length < period + 1 then 50
  else
    let p := rsi_avgs prices period
    if p.2 = 0 then 100
    else 100 - 100 / (1 + p.1 / p.2)

/-- A dynamically-typed Python argument of `_calculate_ema`: the call sites
pass either a list of floats or (by mistake) a bare float. -/
inductive PyNum where
  | pfloat (x : ℚ)
  | plist (xs : List ℚ)

/-- Seed-and-recurrence loop of `_calculate_ema` over the entries past the
seed window: `ema = (x - ema) * mult + ema` with `mult = 2 / (period + 1)`. -/
def emaLoop (period : ℕ) (seed : ℚ) (rest : List ℚ) : ℚ :=
  rest.foldl (fun ema x => (x - ema) * (2 / ((period : ℚ) + 1)) + ema) seed

/-- `TechnicalAnalyzer._calculate_ema` of technical_analysis.py, on a
dynamically typed argument.  On a list shorter than `period` it returns the
plain mean (raising ZeroDivisionError on the empty list); on a long enough
list it seeds with the mean of the first `period` entries and applies the
recurrence; on a bare float the slice `prices[:period]` raises TypeError,
modelled as `Except.error ()`. -/
def _calculate_ema : PyNum → ℕ → Except Unit ℚ
  | .pfloat _, _ => .error ()
  | .plist xs, period =>
    if xs.length < period then
      if xs.length = 0 then .error () else .ok (xs.sum / (xs.length : ℚ))
    else
      if period = 0 then .error ()
      else .ok (emaLoop period ((xs.take period).sum / (period : ℚ)) (xs.drop period))

/-- Result record of `calculate_macd`. -/
structure MacdOut where
  macd_line : ℚ
  signal_line : ℚ
  histogram : ℚ
  signal : String
  deriving DecidableEq, Repr

/-- `TechnicalAnalyzer.calculate_macd` of technical_analysis.py.  Below
`slow + signal` prices it returns the all-zero neutral sentinel; otherwise
it computes the fast and slow EMAs of the price list and then calls
`_calculate_ema` on the scalar `macd_line`, which raises. -/
def calculate_macd (prices : List ℚ) (fast slow sigp : ℕ) : Except Unit MacdOut :=
  if prices.length < slow + sigp then
    .ok ⟨0, 0, 0, "neutral"⟩
  else
    match _calculate_ema (.plist prices) fast, _calculate_ema (.plist prices) slow with
    | .ok ema_fast, .ok ema_slow =>
      let macd_line := ema_fast - ema_slow
      match _calculate_ema (.pfloat macd_line) sigp with
      | .ok signal_line =>
        let histogram := macd_line - signal_line
        let signal_type :=
          if signal_line < macd_line then "buy"
          else if macd_line < signal_line then "sell"
          else "neutral"
        .ok ⟨macd_line, signal_line, histogram, signal_type⟩
      | .error e => .error e
    | .error e, _ => .error e
    | _, .error e => .error e

/-- `TechnicalAnalyzer.calculate_momentum` of technical_analysis.py:
`prices[-1] - prices[-period-1]` once more than `period` prices exist,
else 0. -/
def calculate_momentum (prices : List ℚ) (period : ℕ) : ℚ :=
  if prices.length ≤ period then 0
  else (prices.getLast?.getD 0) - prices.getD (prices.length - period - 1) 0

/-- Result record of `calculate_bollinger_bands`.  The bands are real
numbers because the standard deviation is a square root. -/
structure BollOut where
  upper_band : ℝ
  middle_band : ℝ
  lower_band : ℝ
  band_width : ℝ
  signal : String

/-- `TechnicalAnalyzer.calculate_bollinger_bands` of technical_analysis.py.
Below `period` prices: a synthetic band around the last close (IndexError,
i.e. `Except.error`, on the empty list).  Otherwise: middle band the mean of
the last `period` closes, envelope `std_dev` population standard deviations
(`np.std`) wide.  The `band_width` division is a numpy scalar division
(`upper_band` and `lower_band` are `np.float64`), so at a zero middle band
it yields nan or inf with a RuntimeWarning and the dict is still returned;
it is modelled here with total real division (whose value at a zero
denominator is the junk value 0, observed by no claim).  Only the middle
band itself raises, via Python float division, when `period = 0`. -/
noncomputable def calculate_bollinger_bands (prices : List ℚ) (period : ℕ)
    (std_dev : ℚ) : Except Unit BollOut :=
  if prices.length < period then
    match prices.getLast? with
    | none => .error ()
    | some last =>
      .ok ⟨(last : ℝ) * (11 / 10), (last : ℝ), (last : ℝ) * (9 / 10), 1 / 5, "neutral"⟩
  else
    if period = 0 then .error ()
    else
      let w := lastWindow prices period
      let middle_band : ℚ := w.sum / (period : ℚ)
      let std : ℝ := Real.sqrt (popVar w)
      let upper_band : ℝ := (middle_band : ℝ) + (std_dev : ℝ) * std
      let lower_band : ℝ := (middle_band : ℝ) - (std_dev : ℝ) * std
      let band_width := (upper_band - lower_band) / (middle_band : ℝ)
      let current_price : ℝ := ((prices.getLast?.getD 0 : ℚ) : ℝ)
      let signal_type :=
        if upper_band < current_price then "sell"
        else if current_price < lower_band then "buy"
        else "neutral"
      .ok ⟨upper_band, (middle_band : ℝ), lower_band, band_width, signal_type⟩

/-- Result record of technical_analysis.py `analyze_stock`. -/
structure TAReport where
  recommendation : String
  confidence : String
  rsi : ℚ
  macd : String
  bollinger : String
  momentum : ℚ

/-- `TechnicalAnalyzer.analyze_stock` of technical_analysis.py: neutral
default below 30 prices, otherwise RSI, MACD, Bollinger and momentum are
computed (exceptions from the indicator calls propagate) and combined by
the fixed voting rule; momentum votes carry weight one half. -/
noncomputable def analyze_stock (prices : List ℚ) : Except Unit TAReport :=
  if prices.length < 30 then
    .ok ⟨"neutral", "low", 50, "neutral", "neutral", 0⟩
  else
    match calculate_macd prices 12 26 9 with
    | .error e => .error e
    | .ok macd =>
      match calculate_bollinger_bands prices 20 2 with
      | .error e => .error e
      | .ok bollinger =>
        let rsi := calculate_rsi prices 14
        let momentum := calculate_momentum prices 14
        let buy_rsi : ℚ := if rsi < 30 then 1 else 0
        let sell_rsi : ℚ := if 70 < rsi then 1 else 0
        let buy_macd : ℚ := if macd.signal = "buy" then 1 else 0
        let sell_macd : ℚ := if macd.signal = "sell" then 1 else 0
        let buy_boll : ℚ := if bollinger.signal = "buy" then 1 else 0
        let sell_boll : ℚ := if bollinger.signal = "sell" then 1 else 0
        let buy_mom : ℚ := if 0 < momentum then 1 / 2 else 0
        let sell_mom : ℚ := if momentum < 0 then 1 / 2 else 0
        let buy_signals := buy_rsi + buy_macd + buy_boll + buy_mom
        let sell_signals := sell_rsi + sell_macd + sell_boll + sell_mom
        let recommendation :=
          if sell_signals < buy_signals ∧ 2 ≤ buy_signals then "buy"
          else if buy_signals < sell_signals ∧ 2 ≤ sell_signals then "sell"
          else "neutral"
        let signal_strength := max buy_signals sell_signals
        let confidence :=
          if 3 ≤ signal_strength then "high"
          else if 2 ≤ signal_strength then "medium"
          else "low"
        .ok ⟨recommendation, confidence, rsi, macd.signal, bollinger.signal, momentum⟩

/-! ## analysis.py : TechnicalAnalyzer (pandas variant) -/

/-- `TechnicalAnalyzer._calc_sma` of analysis.py: `None` when fewer than
`period` rows exist (or when `rolling(window=0)` raises and the except
clause returns `None`), otherwise the last value of the rolling mean,
i.e. the mean of the last `period` closes. -/
def _calc_sma (closes : List ℚ) (period : ℕ) : Option ℚ :=
  if closes.length < period then none
  else if period = 0 then none
  else some ((lastWindow closes period).sum / (period : ℚ))

/-- The pandas `ewm(span, adjust=False).mean()` series: first output equals
the first input, then `y = (1 - a) * y_prev + a * x` with
`a = 2 / (span + 1)`. -/
def ewmSeries (xs : List ℚ) (span : ℕ) : List ℚ :=
  match xs with
  | [] => []
  | h :: t =>
    let a : ℚ := 2 / ((span : ℚ) + 1)
    t.scanl (fun y x => (1 - a) * y + a * x) h

/-- `TechnicalAnalyzer._calc_ema` of analysis.py: `None` below `period`
rows, otherwise the last value of the `ewm` mean series. -/
def _calc_ema (closes : List ℚ) (period : ℕ) : Option ℚ :=
  if closes.length < period then none
  else ((ewmSeries closes period).getLast?).getD 0 |> some

/-- A value stored in the analysis dictionary: a (real) number, a NaN, a
Python `None`, a boolean, or a list of numbers. -/
inductive PyVal where
  | num (x : ℝ)
  | pnan
  | pnone
  | pbool (b : Bool)
  | plist (xs : List ℝ)

/-- `TechnicalAnalyzer._calc_rsi` of analysis.py: `None` below
`period + 1` rows; otherwise rolling means over the gain/loss series (whose
first entry is the `diff` NaN replaced by 0 via `where`); in float
arithmetic `avg_gain / avg_loss` is `inf` when only the loss average is
zero (so the RSI is 100) and NaN when both are zero. -/
noncomputable def _calc_rsi (closes : List ℚ) (period : ℕ) : Option PyVal :=
  if closes.length < period + 1 then none
  else
    let gain := 0 :: (diffs closes).map (fun d => if 0 < d then d else 0)
    let loss := 0 :: (diffs closes).map (fun d => if d < 0 then -d else 0)
    let avg_gain := (lastWindow gain period).sum / (period : ℚ)
    let avg_loss := (lastWindow loss period).sum / (period : ℚ)
    if avg_loss = 0 then
      if avg_gain = 0 then some .pnan else some (.num 100)
    else some (.num ((100 - 100 / (1 + avg_gain / avg_loss) : ℚ) : ℝ))

/-- `TechnicalAnalyzer._calc_macd` of analysis.py: `None` components below
`slow + signal` rows, otherwise the last values of the elementwise
`ewm`-based MACD line, its `ewm` signal line, and their difference. -/
def _calc_macd (closes : List ℚ) (fast slow sigp : ℕ) : Option (ℚ × ℚ × ℚ) :=
  if closes.length < slow + sigp then none
  else
    let macd_line := List.zipWith (fun a b => a - b)
      (ewmSeries closes fast) (ewmSeries closes slow)
    let signal_line := ewmSeries macd_line sigp
    let m := macd_line.getLast?.getD 0
    let s := signal_line.getLast?.getD 0
    some (m, s, m - s)

/-- `TechnicalAnalyzer._calc_bollinger_bands` of analysis.py: `None`
components below `period` rows (and when `rolling(window=0)` raises);
otherwise the rolling mean of the last window plus/minus `std_dev` sample
standard deviations (`pandas` default `ddof=1`); for a window of a single
element the sample standard deviation is NaN. -/
noncomputable def _calc_bollinger_bands (closes : List ℚ) (period : ℕ)
    (std_dev : ℚ) : Option (PyVal × PyVal × PyVal) :=
  if closes.length < period then none
  else if period = 0 then none
  else
    let w := lastWindow closes period
    let middle : ℚ := w.sum / (period : ℚ)
    if period < 2 then some (.pnan, .num (middle : ℝ), .pnan)
    else
      let std : ℝ := Real.sqrt (sampleVar w)
      some (.num ((middle : ℝ) + (std_dev : ℝ) * std), .num (middle : ℝ),
            .num ((middle : ℝ) - (std_dev : ℝ) * std))

/-- A Python value that may be `None`, as stored into the result dict. -/
def optToVal : Option ℚ → PyVal
  | some q => .num (q : ℝ)
  | none => .pnone

/-- Python `x > 70` on a dictionary value: false for NaN, a TypeError for
`None` (modelled as the `false`-free `Except.error`). -/
noncomputable def valGtQ (v : PyVal) (c : ℚ) : Except Unit Bool :=
  match v with
  | .num x => .ok (if (c : ℝ) < x then true else false)
  | .pnan => .ok false
  | .pbool b => .ok (if (c : ℝ) < (if b then 1 else 0) then true else false)
  | .pnone => .error ()
  | .plist _ => .error ()

/-- Python `x < 30` on a dictionary value, mirroring `valGtQ`. -/
noncomputable def valLtQ (v : PyVal) (c : ℚ) : Except Unit Bool :=
  match v with
  | .num x => .ok (if x < (c : ℝ) then true else false)
  | .pnan => .ok false
  | .pbool b => .ok (if (if b then (1 : ℝ) else 0) < (c : ℝ) then true else false)
  | .pnone => .error ()
  | .plist _ => .error ()

/-- Python `a > b` on two dictionary values: numeric comparison (NaN
compares false); comparisons against `None` or a list raise TypeError. -/
noncomputable def valGt (a b : PyVal) : Except Unit Bool :=
  match a, b with
  | .num x, .num y => .ok (if y < x then true else false)
  | .num _, .pnan => .ok false
  | .pnan, .num _ => .ok false
  | .pnan, .pnan => .ok false
  | .pbool p, .num y => .ok (if y < (if p then (1 : ℝ) else 0) then true else false)
  | .num x, .pbool q => .ok (if (if q then (1 : ℝ) else 0) < x then true else false)
  | .pbool p, .pbool q => .ok (if (if q then (1 : ℝ) else 0) < (if p then 1 else 0) then true else false)
  | .pbool _, .pnan => .ok false
  | .pnan, .pbool _ => .ok false
  | _, _ => .error ()

/-- `TechnicalAnalyzer.analyze_stock` of analysis.py, over the close
column.  Empty data or fewer than 14 rows give the empty dict; the
comparisons that build `is_uptrend` / `is_overbought` raise TypeError when
an operand is `None`, and the outer except clause then returns the empty
dict, so a non-empty dict is returned only when the SMAs and the RSI are
all numbers (which requires at least 200 rows). -/
noncomputable def analyze_stock_pd (closes : List ℚ) : List (String × PyVal) :=
  if closes.length = 0 then []
  else if closes.length < 14 then []
  else
    let s50 := _calc_sma closes 50
    let s200 := _calc_sma closes 200
    let e50 := _calc_ema closes 50
    let e200 := _calc_ema closes 200
    let rsiv := _calc_rsi closes 14
    let macdv := _calc_macd closes 12 26 9
    let bbv := _calc_bollinger_bands closes 20 2
    match s50, s200 with
    | some a, some b =>
      match rsiv with
      | some rv =>
        [("sma_50", .num (a : ℝ)), ("sma_200", .num (b : ℝ)),
         ("ema_50", optToVal e50), ("ema_200", optToVal e200),
         ("rsi", rv),
         ("macd", optToVal (macdv.map (fun t => t.1))),
         ("macd_signal", optToVal (macdv.map (fun t => t.2.1))),
         ("macd_hist", optToVal (macdv.map (fun t => t.2.2))),
         ("bb_upper", (bbv.map (fun t => t.1)).getD .pnone),
         ("bb_middle", (bbv.map (fun t => t.2.1)).getD .pnone),
         ("bb_lower", (bbv.map (fun t => t.2.2)).getD .pnone),
         ("is_uptrend", .pbool (if (b : ℝ) < (a : ℝ) then true else false)),
         ("is_overbought", .pbool ((valGtQ rv 70).toOption.getD false)),
         ("is_oversold", .pbool ((valLtQ rv 30).toOption.getD false))]
      | none => []
    | _, _ => []

/-- `TechnicalAnalyzer._get_recommendation` of analysis.py: the five-level
mapping from net strength. -/
def _get_recommendation (strength : ℤ) : String :=
  if 2 ≤ strength then "STRONG BUY"
  else if strength = 1 then "BUY"
  else if strength = 0 then "HOLD"
  else if strength = -1 then "SELL"
  else "STRONG SELL"

/-- Moving-average branch of `generate_signals`: when both SMA keys are
present, compare them and move strength by one either way. -/
noncomputable def maBranch (d : List (String × PyVal)) (acc : ℤ × List String) :
    Except Unit (ℤ × List String) :=
  match List.lookup "sma_50" d, List.lookup "sma_200" d with
  | some a, some b =>
    match valGt a b with
    | .error e => .error e
    | .ok g =>
      if g then .ok (acc.1 + 1, acc.2 ++ ["SMA 50 above SMA 200 (Golden Cross)"])
      else .ok (acc.1 - 1, acc.2 ++ ["SMA 50 below SMA 200 (Death Cross)"])
  | _, _ => .ok acc

/-- RSI branch of `generate_signals`: oversold below 30 votes up,
overbought above 70 votes down, otherwise no vote. -/
noncomputable def rsiBranch (d : List (String × PyVal)) (acc : ℤ × List String) :
    Except Unit (ℤ × List String) :=
  match List.lookup "rsi" d with
  | some v =>
    match valLtQ v 30 with
    | .error e => .error e
    | .ok lt30 =>
      if lt30 then .ok (acc.1 + 1, acc.2 ++ ["RSI oversold"])
      else
        match valGtQ v 70 with
        | .error e => .error e
        | .ok gt70 =>
          if gt70 then .ok (acc.1 - 1, acc.2 ++ ["RSI overbought"])
          else .ok acc
  | none => .ok acc

/-- MACD branch of `generate_signals`: when both MACD keys are present,
compare line and signal and move strength by one either way. -/
noncomputable def macdBranch (d : List (String × PyVal)) (acc : ℤ × List String) :
    Except Unit (ℤ × List String) :=
  match List.lookup "macd" d, List.lookup "macd_signal" d with
  | some a, some b =>
    match valGt a b with
    | .error e => .error e
    | .ok g =>
      if g then .ok (acc.1 + 1, acc.2 ++ ["MACD above signal line"])
      else .ok (acc.1 - 1, acc.2 ++ ["MACD below signal line"])
  | _, _ => .ok acc

/-- Python `len(...)` of a dictionary value, raising TypeError on values
with no length. -/
def pyLen : PyVal → Except Unit ℕ
  | .plist xs => .ok xs.length
  | _ => .error ()

/-- Bollinger branch of `generate_signals`: fires only when the band keys
are present and `analysis.get('close', [])` is a non-empty list; it then
compares the last close against the bands. -/
noncomputable def bbBranch (d : List (String × PyVal)) (acc : ℤ × List String) :
    Except Unit (ℤ × List String) :=
  match List.lookup "bb_lower" d, List.lookup "bb_upper" d with
  | some lb, some ub =>
    match (List.lookup "close" d).getD (.plist []) with
    | .plist xs =>
      if xs.length = 0 then .ok acc
      else
        let close : PyVal := .num (xs.getLast?.getD 0)
        match valGt lb close with
        | .error e => .error e
        | .ok below =>
          if below then .ok (acc.1 + 1, acc.2 ++ ["Price below lower Bollinger Band"])
          else
            match valGt close ub with
            | .error e => .error e
            | .ok above =>
              if above then .ok (acc.1 - 1, acc.2 ++ ["Price above upper Bollinger Band"])
              else .ok acc
    | v =>
      match pyLen v with
      | .error e => .error e
      | .ok n =>
        if n = 0 then .ok acc
        else .error ()
  | _, _ => .ok acc

/-- The try-block of `generate_signals`: the four voting branches run in
sequence from strength zero. -/
noncomputable def genSignalsCore (d : List (String × PyVal)) :
    Except Unit (ℤ × List String) :=
  match maBranch d (0, []) with
  | .error e => .error e
  | .ok a1 =>
    match rsiBranch d a1 with
    | .error e => .error e
    | .ok a2 =>
      match macdBranch d a2 with
      | .error e => .error e
      | .ok a3 => bbBranch d a3

/-- `TechnicalAnalyzer.generate_signals` of analysis.py: the HOLD default
on an empty analysis dict, the HOLD/0 fallback when a branch raises, and
otherwise the recommendation derived from the accumulated strength. -/
noncomputable def generate_signals (d : List (String × PyVal)) :
    String × ℤ × List String :=
  if d.isEmpty then ("HOLD", 0, ["Error generating signals"])
  else
    match genSignalsCore d with
    | .ok (s, rs) => (_get_recommendation s, s, rs)
    | .error _ => ("HOLD", 0, ["Error generating signals"])

/-! ## Backtesting (modelled from the spec)

The repository imports `nse_trader.backtesting` in its tests, but that
module is not among the source files; the definitions below follow the
specification of the Backtester, Position and BacktestResult. -/

/-- Modelled from the spec: the side of a trade. -/
inductive Side where
  | long
  | short
  deriving DecidableEq, Repr

/-- Modelled from the spec: a Position value object with entry, exit,
size, side, and the P&L fields filled in at close time (the source module
`nse_trader/backtesting.py` is absent; this follows section 3 of the
spec). -/
structure Position where
  symbol : String
  entry_price : ℚ
  entry_time : ℕ
  quantity : ℚ
  side : Side
  exit_price : Option ℚ
  exit_time : Option ℕ
  pnl : ℚ
  return_pct : ℚ
  deriving DecidableEq, Repr

/-- Modelled from the spec: open a Position (exit fields empty). -/
def Position.open (symbol : String) (entry_price : ℚ) (entry_time : ℕ)
    (quantity : ℚ) (side : Side) : Position :=
  ⟨symbol, entry_price, entry_time, quantity, side, none, none, 0, 0⟩

/-- Modelled from the spec: close a Position, computing
`pnl = (exit - entry) * quantity` for a long and
`(entry - exit) * quantity` for a short, and
`return_pct = pnl / (entry * quantity) * 100`. -/
def Position.close (p : Position) (price : ℚ) (time : ℕ) : Position :=
  let pnl := match p.side with
    | .long => (price - p.entry_price) * p.quantity
    | .short => (p.entry_price - price) * p.quantity
  { p with exit_price := some price, exit_time := some time,
           pnl := pnl, return_pct := pnl / (p.entry_price * p.quantity) * 100 }

/-- Modelled from the spec: one OHLCV bar, reduced to the fields the
backtester reads (timestamp and close). -/
structure Bar where
  t : ℕ
  close : ℚ
  deriving DecidableEq, Repr

/-- Modelled from the spec: a strategy decision at one bar. -/
inductive Decision where
  | enterLong
  | enterShort
  | exitPos
  | hold
  deriving DecidableEq, Repr

/-- Modelled from the spec: the running state of a backtest: cash, the
open position if any, the closed positions so far, and the equity curve. -/
structure BTState where
  cash : ℚ
  openPos : Option Position
  closed : List Position
  curve : List (ℕ × ℚ)
  deriving DecidableEq, Repr

/-- Modelled from the spec: the unrealized value of an open position at a
close price (for a long, its market value; for a short, margin plus
unrealized P&L). -/
def unrealizedValue (p : Position) (close : ℚ) : ℚ :=
  match p.side with
  | .long => p.quantity * close
  | .short => p.quantity * (2 * p.entry_price - close)

/-- Modelled from the spec: equity is cash plus the unrealized value of
the open position at the current close. -/
def BTState.equity (st : BTState) (close : ℚ) : ℚ :=
  st.cash + ((st.openPos.map (fun p => unrealizedValue p close)).getD 0)

/-- Modelled from the spec: one bar of the backtest loop.  The strategy
sees the bars up to and including the current one; entries size the
position from available capital at the current close, exits realize P&L
into cash, and the equity curve receives one point per bar regardless. -/
def stepBT (strategy : List Bar → Decision) (past : List Bar) (b : Bar)
    (st : BTState) : BTState :=
  let d := strategy (past ++ [b])
  let st1 : BTState :=
    match d, st.openPos with
    | .enterLong, none =>
      let qty := st.cash / b.close
      { st with cash := st.cash - qty * b.close,
                openPos := some (Position.open "SYM" b.close b.t qty .long) }
    | .enterShort, none =>
      let qty := st.cash / b.close
      { st with cash := st.cash - qty * b.close,
                openPos := some (Position.open "SYM" b.close b.t qty .short) }
    | .exitPos, some p =>
      let cp := p.close b.close b.t
      { st with cash := st.cash + p.quantity * p.entry_price + cp.pnl,
                openPos := none, closed := st.closed ++ [cp] }
    | _, _ => st
  { st1 with curve := st1.curve ++ [(b.t, st1.equity b.close)] }

/-- Modelled from the spec: the bar-by-bar loop. -/
def runBars (strategy : List Bar → Decision) (past : List Bar) (st : BTState) :
    List Bar → BTState
  | [] => st
  | b :: rest => runBars strategy (past ++ [b]) (stepBT strategy past b st) rest

/-- Modelled from the spec: a BacktestResult with its derived metrics. -/
structure BacktestResult where
  positions : List Position
  equity_curve : List (ℕ × ℚ)
  total_trades : ℕ
  win_rate : ℚ
  profit_factor : Option ℚ
  total_return : ℚ
  deriving DecidableEq, Repr

/-- Modelled from the spec: the single aggregation pass over positions and
equity curve; the profit factor is the undefined sentinel (`none`) when
there are no losing trades. -/
def calculate_metrics (initial_capital : ℚ) (positions : List Position)
    (curve : List (ℕ × ℚ)) : BacktestResult :=
  let total_trades := positions.length
  let wins := (positions.filter (fun p => 0 < p.pnl)).length
  let win_rate : ℚ :=
    if total_trades = 0 then 0 else 100 * (wins : ℚ) / (total_trades : ℚ)
  let gross_profit := ((positions.filter (fun p => 0 < p.pnl)).map Position.pnl).sum
  let gross_loss := ((positions.filter (fun p => p.pnl < 0)).map Position.pnl).sum
  let profit_factor := if gross_loss = 0 then none else some (gross_profit / (-gross_loss))
  let final_equity := ((curve.getLast?.map Prod.snd).getD initial_capital)
  let total_return := (final_equity / initial_capital - 1) * 100
  ⟨positions, curve, total_trades, win_rate, profit_factor, total_return⟩

/-- Modelled from the spec: the Backtester (its only configuration is the
initial capital). -/
structure Backtester where
  initial_capital : ℚ

/-- Modelled from the spec: `Backtester.run` drives the strategy over the
bars, force-closes any still-open position at the final close, and returns
the aggregated BacktestResult. -/
def Backtester.run (bt : Backtester) (bars : List Bar)
    (strategy : List Bar → Decision) : BacktestResult :=
  let st0 : BTState := ⟨bt.initial_capital, none, [], []⟩
  let st := runBars strategy [] st0 bars
  let stF :=
    match st.openPos, bars.getLast? with
    | some p, some b =>
      let cp := p.close b.close b.t
      { st with cash := st.cash + p.quantity * p.entry_price + cp.pnl,
                openPos := none, closed := st.closed ++ [cp] }
    | _, _ => st
  calculate_metrics bt.initial_capital stF.closed stF.curve

/-- Modelled from the spec: the built-in SMA-crossover strategy — enter
long when the fast SMA crosses above the slow SMA, exit on the cross
below; insufficient-data sentinels yield hold. -/
def create_sma_crossover_strategy (fast slow : ℕ) : List Bar → Decision :=
  fun hist =>
    let closes := hist.map Bar.close
    let prev := closes.dropLast
    match _calc_sma closes fast, _calc_sma closes slow,
          _calc_sma prev fast, _calc_sma prev slow with
    | some f, some s, some pf, some ps =>
      if pf ≤ ps ∧ s < f then .enterLong
      else if ps ≤ pf ∧ f < s then .exitPos
      else .hold
    | _, _, _, _ => .hold

/-- Modelled from the spec: the built-in RSI strategy — enter long when
the RSI is below the oversold threshold, exit above the overbought
threshold; the insufficient-data RSI sentinel 50 yields hold. -/
def create_rsi_strategy (oversold overbought : ℚ) : List Bar → Decision :=
  fun hist =>
    let r := calculate_rsi (hist.map Bar.close) 14
    if r < oversold then .enterLong
    else if overbought < r then .exitPos
    else .hold

/-! ## Helper lemmas -/

/-- On at least `slow + signal = 35` prices, `calculate_macd` always ends
in the TypeError raised by taking the EMA of the scalar MACD line. -/
lemma calculate_macd_error_of_length (prices : List ℚ)
    (h : 35 ≤ prices.length) : calculate_macd prices 12 26 9 = .error () := by
  have h1 : ¬ prices.length < 26 + 9 := by omega
  have h2 : ¬ prices.length < 12 := by omega
  have h3 : ¬ prices.length < 26 := by omega
  simp [calculate_macd, _calculate_ema, h1, h2, h3]

/-- Below 35 prices, `calculate_macd` returns the all-zero neutral
sentinel. -/
lemma calculate_macd_sentinel (prices : List ℚ)
    (h : prices.length < 35) :
    calculate_macd prices 12 26 9 = .ok ⟨0, 0, 0, "neutral"⟩ := by
  have h1 : prices.length < 26 + 9 := by omega
  simp [calculate_macd, h1]

/-- The Wilder smoothing loop keeps a nonnegative average nonnegative when
the period is at least 1 and the smoothed-in values are nonnegative. -/
lemma wilderSmooth_nonneg (period : ℕ) (hp : 1 ≤ period) :
    ∀ (l : List ℚ) (a0 : ℚ), 0 ≤ a0 → (∀ x ∈ l, 0 ≤ x) →
      0 ≤ wilderSmooth period a0 l := by
  intro l
  induction l with
  | nil => intro a0 h0 _; simpa [wilderSmooth] using h0
  | cons x t ih =>
    intro a0 h0 hl
    have hx : 0 ≤ x := hl x (by simp)
    have hp' : (1 : ℚ) ≤ (period : ℚ) := by exact_mod_cast hp
    have step : 0 ≤ (a0 * ((period : ℚ) - 1) + x) / (period : ℚ) := by
      apply div_nonneg
      · have : 0 ≤ a0 * ((period : ℚ) - 1) := mul_nonneg h0 (by linarith)
        linarith
      · linarith
    have := ih ((a0 * ((period : ℚ) - 1) + x) / (period : ℚ)) step
      (fun y hy => hl y (by simp [hy]))
    simpa [wilderSmooth] using this

/-- Both smoothed averages computed by `calculate_rsi` are nonnegative. -/
lemma rsi_avgs_nonneg (prices : List ℚ) (period : ℕ) (hp : 1 ≤ period) :
    0 ≤ (rsi_avgs prices period).1 ∧ 0 ≤ (rsi_avgs prices period).2 := by
  have hgain : ∀ x ∈ (diffs prices).map (fun d => if 0 < d then d else 0), 0 ≤ x := by
    intro x hx
    rcases List.mem_map.mp hx with ⟨d, _, rfl⟩
    by_cases hd : 0 < d
    · simpa [hd] using hd.le
    · simp [hd]
  have hloss : ∀ x ∈ (diffs prices).map (fun d => if d < 0 then -d else 0), 0 ≤ x := by
    intro x hx
    rcases List.mem_map.mp hx with ⟨d, _, rfl⟩
    by_cases hd : d < 0
    · simp only [hd, if_true]
      linarith
    · simp [hd]
  constructor
  · apply wilderSmooth_nonneg period hp
    · apply div_nonneg
      · exact List.sum_nonneg (fun x hx => hgain x (List.mem_of_mem_take hx))
      · positivity
    · exact fun x hx => hgain x (List.mem_of_mem_drop hx)
  · apply wilderSmooth_nonneg period hp
    · apply div_nonneg
      · exact List.sum_nonneg (fun x hx => hloss x (List.mem_of_mem_take hx))
      · positivity
    · exact fun x hx => hloss x (List.mem_of_mem_drop hx)

/-! ## Claims -/

/-- C1: the IndicatorLibrary operations are claimed total and
exception-free, and in particular `calculate_macd` is claimed to return
for every prices list of length at least 35.  In fact, on any such list
the call `self._calculate_ema(macd_line, signal)` slices the scalar
`macd_line` and raises TypeError: here, at 35 constant closes, the
embedded `calculate_macd` evaluates to an exception. -/
theorem c1_macd_raises_at_35 :
    calculate_macd (List.replicate 35 (100 : ℚ)) 12 26 9 = .error () :=
  calculate_macd_error_of_length _ (by simp)

/-- C2: the claimed MACD values for 35 or more prices are never produced:
every such call raises (TypeError from the EMA of a scalar); only the
short-input sentinel path returns, with all three values 0 and the
neutral classification. -/
theorem c2_macd_values : ∀ prices : List ℚ,
    (35 ≤ prices.length → calculate_macd prices 12 26 9 = .error ()) ∧
    (prices.length < 35 →
      calculate_macd prices 12 26 9 = .ok ⟨0, 0, 0, "neutral"⟩) :=
  fun prices =>
    ⟨fun h => calculate_macd_error_of_length prices h,
     fun h => calculate_macd_sentinel prices h⟩

/-- Witness for C2 at concrete inputs on both sides of the length guard. -/
theorem c2_macd_values_witness :
    calculate_macd (List.replicate 35 (50 : ℚ)) 12 26 9 = .error () ∧
    calculate_macd [1, 2, 3] 12 26 9 = .ok ⟨0, 0, 0, "neutral"⟩ :=
  ⟨(c2_macd_values _).1 (by simp),
   (c2_macd_values _).2 (by simp)⟩

/-- C3: for any period of at least 1, `calculate_rsi` is bounded between 0
and 100; it returns exactly 100 whenever the smoothed average loss is
zero, and the neutral 50 whenever fewer than `period + 1` prices exist. -/
theorem c3_rsi_bounded : ∀ (prices : List ℚ) (period : ℕ), 1 ≤ period →
    (0 ≤ calculate_rsi prices period ∧ calculate_rsi prices period ≤ 100) ∧
    (period + 1 ≤ prices.length → (rsi_avgs prices period).2 = 0 →
      calculate_rsi prices period = 100) ∧
    (prices.length < period + 1 → calculate_rsi prices period = 50) := by
  intro prices period hp
  obtain ⟨hag, hal⟩ := rsi_avgs_nonneg prices period hp
  refine ⟨?_, ?_, ?_⟩
  · unfold calculate_rsi
    by_cases hlen : prices.length < period + 1
    · simp only [hlen, if_true]
      norm_num
    · simp only [hlen, if_false]
      by_cases h0 : (rsi_avgs prices period).2 = 0
      · simp only [h0, if_true]
        norm_num
      · simp only [h0, if_false]
        have hpos : 0 < (rsi_avgs prices period).2 := lt_of_le_of_ne hal (Ne.symm h0)
        have hrs : 0 ≤ (rsi_avgs prices period).1 / (rsi_avgs prices period).2 :=
          div_nonneg hag (le_of_lt hpos)
        have h1 : (1 : ℚ) ≤ 1 + (rsi_avgs prices period).1 / (rsi_avgs prices period).2 := by
          linarith
        have h2 : 100 / (1 + (rsi_avgs prices period).1 / (rsi_avgs prices period).2) ≤ 100 :=
          div_le_self (by norm_num) h1
        have h3 : 0 < 100 / (1 + (rsi_avgs prices period).1 / (rsi_avgs prices period).2) :=
          div_pos (by norm_num) (by linarith)
        constructor
        · linarith
        · linarith
  · intro hlen h0
    have hlen' : ¬ prices.length < period + 1 := by omega
    simp [calculate_rsi, hlen', h0]
  · intro hlen
    simp [calculate_rsi, hlen]

/-- Witness for C3 at a concrete price list and the default period. -/
theorem c3_rsi_bounded_witness :
    (0 ≤ calculate_rsi [1, 2, 3] 14 ∧ calculate_rsi [1, 2, 3] 14 ≤ 100) ∧
    ((3 : ℕ) < 14 + 1 → calculate_rsi [1, 2, 3] 14 = 50) :=
  ⟨(c3_rsi_bounded [1, 2, 3] 14 (by norm_num)).1,
   fun _ => (c3_rsi_bounded [1, 2, 3] 14 (by norm_num)).2.2 (by norm_num)⟩

/-- C4: for 35 or more prices (well inside the claimed `length ≥ 30`
domain), `analyze_stock` of technical_analysis.py does not return a
recommendation at all: the MACD step raises TypeError and the exception
propagates out of `analyze_stock`, which has no handler. -/
theorem c4_analyze_stock_raises : ∀ prices : List ℚ, 35 ≤ prices.length →
    analyze_stock prices = .error () := by
  intro prices h
  have h30 : ¬ prices.length < 30 := by omega
  simp [analyze_stock, h30, calculate_macd_error_of_length prices h]

/-- Witness for C4 at 36 constant closes. -/
theorem c4_analyze_stock_raises_witness :
    analyze_stock (List.replicate 36 (7 : ℚ)) = .error () :=
  c4_analyze_stock_raises _ (by simp)

/-- C5: for any positive period, `_calc_sma` of analysis.py returns the
arithmetic mean of the last `period` closes when enough rows exist, and
the `None` sentinel otherwise. -/
theorem c5_sma_mean : ∀ (closes : List ℚ) (period : ℕ), 1 ≤ period →
    (period ≤ closes.length →
      _calc_sma closes period = some (arithMeanLast closes period)) ∧
    (closes.length < period → _calc_sma closes period = none) := by
  intro closes period hp
  constructor
  · intro hle
    have h1 : ¬ closes.length < period := by omega
    have h2 : period ≠ 0 := by omega
    simp only [_calc_sma, h1, if_false, h2, ite_false]
    congr 1
    unfold arithMeanLast lastWindow
    rw [List.take_reverse, List.sum_reverse]
  · intro hlt
    simp [_calc_sma, hlt]

/-- Witness for C5 on both sides of the length guard. -/
theorem c5_sma_mean_witness :
    _calc_sma [1, 2, 3, 4] 2 = some (arithMeanLast [1, 2, 3, 4] 2) ∧
    _calc_sma [1] 2 = none :=
  ⟨(c5_sma_mean [1, 2, 3, 4] 2 (by norm_num)).1 (by norm_num),
   (c5_sma_mean [1] 2 (by norm_num)).2 (by norm_num)⟩

/-- C6: for 20 or more closes the returned bands satisfy
`lower ≤ middle ≤ upper` (at a zero-mean window the numpy scalar division
only makes `band_width` nan, the bands 0/0/0 are still returned and
ordered); for a non-empty shorter input the fallback band is the last
close, plus 10 percent above, minus 10 percent below, with band width one
fifth and a neutral signal. -/
theorem c6_bollinger_ordered : ∀ prices : List ℚ,
    (20 ≤ prices.length →
      ∃ b : BollOut, calculate_bollinger_bands prices 20 2 = .ok b ∧
        b.lower_band ≤ b.middle_band ∧ b.middle_band ≤ b.upper_band) ∧
    (prices ≠ [] → prices.length < 20 →
      calculate_bollinger_bands prices 20 2 =
        .ok ⟨((prices.getLast?.getD 0 : ℚ) : ℝ) * (11 / 10),
             ((prices.getLast?.getD 0 : ℚ) : ℝ),
             ((prices.getLast?.getD 0 : ℚ) : ℝ) * (9 / 10), 1 / 5, "neutral"⟩) := by
  intro prices
  constructor
  · intro hlen
    have h1 : ¬ prices.length < 20 := by omega
    simp only [calculate_bollinger_bands, h1, if_false]
    norm_num
  · intro hne hlt
    have hsome : prices.getLast? = some (prices.getLast hne) :=
      List.getLast?_eq_getLast prices hne
    simp [calculate_bollinger_bands, hlt, hsome]

/-- Witness for C6: a 20-element all-zero window (the degenerate zero-mean
case) for the sufficient branch, a singleton list for the fallback
branch. -/
theorem c6_bollinger_ordered_witness :
    (∃ b : BollOut, calculate_bollinger_bands (List.replicate 20 (0 : ℚ)) 20 2 = .ok b ∧
        b.lower_band ≤ b.middle_band ∧ b.middle_band ≤ b.upper_band) ∧
    calculate_bollinger_bands [5] 20 2 =
      .ok ⟨(((5 : ℚ) : ℝ)) * (11 / 10), ((5 : ℚ) : ℝ), (((5 : ℚ) : ℝ)) * (9 / 10),
           1 / 5, "neutral"⟩ := by
  constructor
  · exact (c6_bollinger_ordered (List.replicate 20 (0 : ℚ))).1 (by simp)
  · have h := (c6_bollinger_ordered [5]).2 (by simp) (by simp)
    simpa using h

/-- C7 counterexample: the claim says the Bollinger computation of
analysis.py also uses the population standard deviation of the window.  At
the 20-element window of nineteen zeros and one 20 (mean 1, population
variance 19, sample variance 20) the upper band actually returned differs
from the population-standard-deviation band `1 + 2 * sqrt 19`. -/
theorem c7_counterexample :
    (_calc_bollinger_bands (List.replicate 19 (0 : ℚ) ++ [20]) 20 2).map (fun t => t.1) ≠
      some (PyVal.num (((1 : ℚ) : ℝ) + ((2 : ℚ) : ℝ) *
        Real.sqrt (popVar (List.replicate 19 (0 : ℚ) ++ [20])))) := by
  have hw : lastWindow (List.replicate 19 (0 : ℚ) ++ [20]) 20 =
      List.replicate 19 (0 : ℚ) ++ [20] := by
    simp [lastWindow]
  have hm : ((List.replicate 19 (0 : ℚ) ++ [20]).sum / ((20 : ℕ) : ℚ)) = 1 := by
    norm_num [List.sum_append, List.sum_replicate]
  have hs : sampleVar (List.replicate 19 (0 : ℚ) ++ [20]) = 20 := by
    norm_num [sampleVar, List.sum_append, List.sum_replicate, List.map_append,
      List.map_replicate]
  have hp : popVar (List.replicate 19 (0 : ℚ) ++ [20]) = 19 := by
    norm_num [popVar, List.sum_append, List.sum_replicate, List.map_append,
      List.map_replicate]
  have heval : (_calc_bollinger_bands (List.replicate 19 (0 : ℚ) ++ [20]) 20 2).map
        (fun t => t.1) =
      some (PyVal.num (((1 : ℚ) : ℝ) + ((2 : ℚ) : ℝ) * Real.sqrt ((20 : ℚ) : ℝ))) := by
    simp only [_calc_bollinger_bands, hw, hm, hs]
    norm_num
  rw [heval, hp]
  intro h
  have h2 : ((1 : ℚ) : ℝ) + ((2 : ℚ) : ℝ) * Real.sqrt ((20 : ℚ) : ℝ) =
      ((1 : ℚ) : ℝ) + ((2 : ℚ) : ℝ) * Real.sqrt ((19 : ℚ) : ℝ) := by
    injection Option.some.inj h with h3
  have hlt : Real.sqrt ((19 : ℚ) : ℝ) < Real.sqrt ((20 : ℚ) : ℝ) := by
    push_cast
    exact Real.sqrt_lt_sqrt (by norm_num) (by norm_num)
  push_cast at h2 hlt
  linarith

/-- C7 amended: the Bollinger envelope of technical_analysis.py does use
the population standard deviation (divisor n; 0 on a one-point window),
but the Bollinger envelope of analysis.py uses the pandas sample standard
deviation (divisor n - 1); the two variances are related by
`n * popVar = (n - 1) * sampleVar` and so agree only on zero-variance
windows. -/
theorem c7_std_divisors : ∀ (x : ℚ) (w : List ℚ) (closes : List ℚ)
    (period : ℕ) (k : ℚ),
    popVar [x] = 0 ∧
    (w.length : ℚ) * popVar w = ((w.length : ℚ) - 1) * sampleVar w ∧
    (2 ≤ period → period ≤ closes.length →
      _calc_bollinger_bands closes period k =
        some (.num (((lastWindow closes period).sum / (period : ℚ) : ℚ) +
                (k : ℝ) * Real.sqrt (sampleVar (lastWindow closes period))),
              .num (((lastWindow closes period).sum / (period : ℚ) : ℚ)),
              .num (((lastWindow closes period).sum / (period : ℚ) : ℚ) -
                (k : ℝ) * Real.sqrt (sampleVar (lastWindow closes period))))) ∧
    (20 ≤ closes.length →
      ∃ b : BollOut, calculate_bollinger_bands closes 20 k = .ok b ∧
        b.upper_band = b.middle_band + (k : ℝ) * Real.sqrt (popVar (lastWindow closes 20)) ∧
        b.lower_band = b.middle_band - (k : ℝ) * Real.sqrt (popVar (lastWindow closes 20))) := by
  intro x w closes period k
  refine ⟨by simp [popVar], ?_, ?_, ?_⟩
  · rcases w with _ | ⟨a, t⟩
    · simp [popVar, sampleVar]
    rcases t with _ | ⟨b, t2⟩
    · norm_num [popVar, sampleVar]
    · have h0 : ((a :: b :: t2).length : ℚ) ≠ 0 := by
        have hpos : (0 : ℚ) < ((a :: b :: t2).length : ℚ) := by
          exact_mod_cast Nat.succ_pos _
        linarith
      have h1 : ((a :: b :: t2).length : ℚ) - 1 ≠ 0 := by
        have h2 : (2 : ℚ) ≤ ((a :: b :: t2).length : ℚ) := by
          exact_mod_cast Nat.succ_le_succ (Nat.succ_le_succ (Nat.zero_le _))
        linarith
      simp only [popVar, sampleVar]
      generalize ((a :: b :: t2).map
        (fun y => (y - (a :: b :: t2).sum / ((a :: b :: t2).length : ℚ)) ^ 2)).sum = S
      field_simp
  · intro hp2 hple
    have h1 : ¬ closes.length < period := by omega
    have h2 : period ≠ 0 := by omega
    have h3 : ¬ period < 2 := by omega
    simp [_calc_bollinger_bands, h1, h2, h3]
  · intro hlen
    have h1 : ¬ closes.length < 20 := by omega
    simp only [calculate_bollinger_bands, h1, if_false]
    norm_num

/-- Witness for C7-amended at concrete inputs: a singleton window, a
two-element window, and a 20-element constant price list. -/
theorem c7_std_divisors_witness :
    popVar [(3 : ℚ)] = 0 ∧
    (([(1 : ℚ), 2].length : ℚ)) * popVar [(1 : ℚ), 2] =
      ((([(1 : ℚ), 2].length : ℚ)) - 1) * sampleVar [(1 : ℚ), 2] ∧
    _calc_bollinger_bands (List.replicate 20 (1 : ℚ)) 20 2 =
      some (.num (((lastWindow (List.replicate 20 (1 : ℚ)) 20).sum / ((20 : ℕ) : ℚ) : ℚ) +
              ((2 : ℚ) : ℝ) * Real.sqrt (sampleVar (lastWindow (List.replicate 20 (1 : ℚ)) 20))),
            .num (((lastWindow (List.replicate 20 (1 : ℚ)) 20).sum / ((20 : ℕ) : ℚ) : ℚ)),
            .num (((lastWindow (List.replicate 20 (1 : ℚ)) 20).sum / ((20 : ℕ) : ℚ) : ℚ) -
              ((2 : ℚ) : ℝ) * Real.sqrt (sampleVar (lastWindow (List.replicate 20 (1 : ℚ)) 20)))) ∧
    (∃ b : BollOut, calculate_bollinger_bands (List.replicate 20 (1 : ℚ)) 20 2 = .ok b ∧
      b.upper_band = b.middle_band +
        ((2 : ℚ) : ℝ) * Real.sqrt (popVar (lastWindow (List.replicate 20 (1 : ℚ)) 20)) ∧
      b.lower_band = b.middle_band -
        ((2 : ℚ) : ℝ) * Real.sqrt (popVar (lastWindow (List.replicate 20 (1 : ℚ)) 20))) := by
  obtain ⟨ha, hb, hc, hd⟩ := c7_std_divisors 3 [(1 : ℚ), 2] (List.replicate 20 (1 : ℚ)) 20 2
  exact ⟨ha, hb, hc (by norm_num) (by simp), hd (by simp)⟩

/-- C9: closing a Position computes the claimed P&L by side and the
claimed percentage return, and the two concrete round trips of the test
suite come out as stated. -/
theorem c9_position_pnl : ∀ (symbol : String) (e : ℚ) (t : ℕ) (q : ℚ)
    (s : Side) (x : ℚ) (t2 : ℕ), e * q ≠ 0 →
    (((Position.open symbol e t q s).close x t2).pnl =
      match s with
      | .long => (x - e) * q
      | .short => (e - x) * q) ∧
    ((Position.open symbol e t q s).close x t2).return_pct =
      ((Position.open symbol e t q s).close x t2).pnl / (e * q) * 100 ∧
    ((Position.open "STOCK" 100 0 100 .long).close 110 1).pnl = 1000 ∧
    ((Position.open "STOCK" 100 0 100 .long).close 110 1).return_pct = 10 ∧
    ((Position.open "STOCK" 100 0 100 .short).close 90 1).pnl = 1000 ∧
    ((Position.open "STOCK" 100 0 100 .short).close 90 1).return_pct = 10 := by
  intro symbol e t q s x t2 hne
  refine ⟨?_, ?_, ?_, ?_, ?_, ?_⟩
  · cases s <;> simp [Position.open, Position.close]
  · cases s <;> simp [Position.open, Position.close]
  all_goals norm_num [Position.open, Position.close]

/-- Witness for C9 at a concrete long position. -/
theorem c9_position_pnl_witness :
    ((Position.open "X" 2 0 3 .long).close 5 1).pnl = (5 - 2) * 3 ∧
    ((Position.open "X" 2 0 3 .long).close 5 1).return_pct =
      ((Position.open "X" 2 0 3 .long).close 5 1).pnl / (2 * 3) * 100 ∧
    ((Position.open "STOCK" 100 0 100 .long).close 110 1).pnl = 1000 ∧
    ((Position.open "STOCK" 100 0 100 .long).close 110 1).return_pct = 10 ∧
    ((Position.open "STOCK" 100 0 100 .short).close 90 1).pnl = 1000 ∧
    ((Position.open "STOCK" 100 0 100 .short).close 90 1).return_pct = 10 := by
  have h := c9_position_pnl "X" 2 0 3 .long 5 1 (by norm_num)
  exact ⟨h.1, h.2.1, h.2.2.1, h.2.2.2.1, h.2.2.2.2.1, h.2.2.2.2.2⟩

/-- The SMA-crossover strategy holds whenever the history is shorter than
the slow period (the slow SMA is the undefined sentinel). -/
lemma smaCrossover_hold (fast slow : ℕ) (hist : List Bar)
    (h : hist.length < slow) :
    create_sma_crossover_strategy fast slow hist = .hold := by
  rcases hfast : _calc_sma (hist.map Bar.close) fast with _ | f
  · simp [create_sma_crossover_strategy, hfast]
  · have hslow : _calc_sma (hist.map Bar.close) slow = none := by
      simp [_calc_sma, List.length_map, h]
    simp [create_sma_crossover_strategy, hfast, hslow]

/-- The RSI strategy holds whenever the history is shorter than 15 bars
(the RSI is the neutral sentinel 50, between the 30/70 thresholds). -/
lemma rsiStrategy_hold (hist : List Bar) (h : hist.length < 15) :
    create_rsi_strategy 30 70 hist = .hold := by
  norm_num [create_rsi_strategy, calculate_rsi, List.length_map, h]

/-- A backtest in which the strategy always holds keeps cash and the
absence of any position, and only extends the equity curve. -/
lemma runBars_hold (strat : List Bar → Decision) (N : ℕ)
    (H : ∀ h : List Bar, h.length ≤ N → strat h = .hold) :
    ∀ (rest past : List Bar) (st : BTState), st.openPos = none →
      past.length + rest.length ≤ N →
      runBars strat past st rest =
        { st with curve := st.curve ++ rest.map (fun b => (b.t, st.cash)) } := by
  intro rest
  induction rest with
  | nil => intro past st hop hlen; simp [runBars]
  | cons b tl ih =>
    intro past st hop hlen
    have hd : strat (past ++ [b]) = .hold := by
      apply H
      simp only [List.length_append, List.length_cons] at hlen ⊢
      simp
      omega
    have hstep : stepBT strat past b st =
        { st with curve := st.curve ++ [(b.t, st.cash)] } := by
      simp [stepBT, hd, hop, BTState.equity]
    rw [runBars, hstep]
    rw [ih (past ++ [b]) _ (by simp [hop]) (by simp at hlen ⊢; omega)]
    simp

/-- A backtest with no closed positions and a constant-cash equity curve
has zero trades and zero total return. -/
lemma metrics_no_trades (cap : ℚ) (hcap : cap ≠ 0) (bars : List Bar) :
    (calculate_metrics cap [] (bars.map (fun b => (b.t, cap)))).total_trades = 0 ∧
    (calculate_metrics cap [] (bars.map (fun b => (b.t, cap)))).total_return = 0 := by
  constructor
  · simp [calculate_metrics]
  · rcases hb : bars.getLast? with _ | b
    · simp [calculate_metrics, List.getLast?_map, hb, div_self hcap]
    · simp [calculate_metrics, List.getLast?_map, hb, div_self hcap]

/-- C8: modelled from the spec (the backtesting module itself is not in
the source tree): a Backtester run over an empty series — with any
strategy — and a run over a series too short for the strategy's
indicators (SMA crossover below the slow period, RSI strategy below 15
bars) produce a BacktestResult with zero trades and zero total return,
and the run is total. -/
theorem c8_backtester_safe : ∀ cap : ℚ, cap ≠ 0 →
    (∀ strat : List Bar → Decision,
      (Backtester.run ⟨cap⟩ [] strat).total_trades = 0 ∧
      (Backtester.run ⟨cap⟩ [] strat).total_return = 0) ∧
    (∀ (bars : List Bar) (fast slow : ℕ), bars.length < slow →
      (Backtester.run ⟨cap⟩ bars (create_sma_crossover_strategy fast slow)).total_trades = 0 ∧
      (Backtester.run ⟨cap⟩ bars (create_sma_crossover_strategy fast slow)).total_return = 0) ∧
    (∀ bars : List Bar, bars.length < 15 →
      (Backtester.run ⟨cap⟩ bars (create_rsi_strategy 30 70)).total_trades = 0 ∧
      (Backtester.run ⟨cap⟩ bars (create_rsi_strategy 30 70)).total_return = 0) := by
  intro cap hcap
  refine ⟨?_, ?_, ?_⟩
  · intro strat
    simp [Backtester.run, runBars, calculate_metrics, div_self hcap]
  · intro bars fast slow hlen
    have hrun : runBars (create_sma_crossover_strategy fast slow) []
        ⟨cap, none, [], []⟩ bars =
        { cash := cap, openPos := none, closed := [],
          curve := bars.map (fun b => (b.t, cap)) } := by
      have := runBars_hold (create_sma_crossover_strategy fast slow) bars.length
        (fun h hh => smaCrossover_hold fast slow h (by omega)) bars [] ⟨cap, none, [], []⟩
        rfl (by simp)
      simpa using this
    have hres : Backtester.run ⟨cap⟩ bars (create_sma_crossover_strategy fast slow) =
        calculate_metrics cap [] (bars.map (fun b => (b.t, cap))) := by
      simp [Backtester.run, hrun]
    rw [hres]
    exact metrics_no_trades cap hcap bars
  · intro bars hlen
    have hrun : runBars (create_rsi_strategy 30 70) [] ⟨cap, none, [], []⟩ bars =
        { cash := cap, openPos := none, closed := [],
          curve := bars.map (fun b => (b.t, cap)) } := by
      have := runBars_hold (create_rsi_strategy 30 70) bars.length
        (fun h hh => rsiStrategy_hold h (by omega)) bars [] ⟨cap, none, [], []⟩
        rfl (by simp)
      simpa using this
    have hres : Backtester.run ⟨cap⟩ bars (create_rsi_strategy 30 70) =
        calculate_metrics cap [] (bars.map (fun b => (b.t, cap))) := by
      simp [Backtester.run, hrun]
    rw [hres]
    exact metrics_no_trades cap hcap bars

/-- Witness for C8: the default capital with the empty series, a one-bar
series under the default 50/200 SMA crossover, and a one-bar series under
the 30/70 RSI strategy. -/
theorem c8_backtester_safe_witness :
    ((Backtester.run ⟨100000⟩ [] (fun _ => Decision.hold)).total_trades = 0 ∧
     (Backtester.run ⟨100000⟩ [] (fun _ => Decision.hold)).total_return = 0) ∧
    ((Backtester.run ⟨100000⟩ [⟨0, 10⟩] (create_sma_crossover_strategy 50 200)).total_trades = 0 ∧
     (Backtester.run ⟨100000⟩ [⟨0, 10⟩] (create_sma_crossover_strategy 50 200)).total_return = 0) ∧
    ((Backtester.run ⟨100000⟩ [⟨0, 10⟩] (create_rsi_strategy 30 70)).total_trades = 0 ∧
     (Backtester.run ⟨100000⟩ [⟨0, 10⟩] (create_rsi_strategy 30 70)).total_return = 0) := by
  obtain ⟨h1, h2, h3⟩ := c8_backtester_safe 100000 (by norm_num)
  exact ⟨h1 _, h2 [⟨0, 10⟩] 50 200 (by simp), h3 [⟨0, 10⟩] (by simp)⟩

/-- The dict built by `analyze_stock` of analysis.py never contains the
key "close": it is either empty or carries exactly the fourteen indicator
keys. -/
lemma analyze_stock_pd_no_close (closes : List ℚ) :
    List.lookup "close" (analyze_stock_pd closes) = none := by
  unfold analyze_stock_pd
  split
  · rfl
  split
  · rfl
  dsimp only
  split
  · split
    · rfl
    · rfl
  · rfl

/-- The moving-average branch moves the strength by at most one. -/
lemma maBranch_bound (d : List (String × PyVal)) (acc acc' : ℤ × List String)
    (h : maBranch d acc = .ok acc') :
    ∃ v : ℤ, v.natAbs ≤ 1 ∧ acc'.1 = acc.1 + v := by
  unfold maBranch at h
  split at h
  · split at h
    · cases h
    · split at h
      · injection h with h2
        subst h2
        exact ⟨1, by norm_num, by simp⟩
      · injection h with h2
        subst h2
        exact ⟨-1, by norm_num, by simp [sub_eq_add_neg]⟩
  · injection h with h2
    subst h2
    exact ⟨0, by norm_num, by simp⟩

/-- The RSI branch moves the strength by at most one. -/
lemma rsiBranch_bound (d : List (String × PyVal)) (acc acc' : ℤ × List String)
    (h : rsiBranch d acc = .ok acc') :
    ∃ v : ℤ, v.natAbs ≤ 1 ∧ acc'.1 = acc.1 + v := by
  unfold rsiBranch at h
  split at h
  · split at h
    · cases h
    · split at h
      · injection h with h2
        subst h2
        exact ⟨1, by norm_num, by simp⟩
      · split at h
        · cases h
        · split at h
          · injection h with h2
            subst h2
            exact ⟨-1, by norm_num, by simp [sub_eq_add_neg]⟩
          · injection h with h2
            subst h2
            exact ⟨0, by norm_num, by simp⟩
  · injection h with h2
    subst h2
    exact ⟨0, by norm_num, by simp⟩

/-- The MACD branch moves the strength by at most one. -/
lemma macdBranch_bound (d : List (String × PyVal)) (acc acc' : ℤ × List String)
    (h : macdBranch d acc = .ok acc') :
    ∃ v : ℤ, v.natAbs ≤ 1 ∧ acc'.1 = acc.1 + v := by
  unfold macdBranch at h
  split at h
  · split at h
    · cases h
    · split at h
      · injection h with h2
        subst h2
        exact ⟨1, by norm_num, by simp⟩
      · injection h with h2
        subst h2
        exact ⟨-1, by norm_num, by simp [sub_eq_add_neg]⟩
  · injection h with h2
    subst h2
    exact ⟨0, by norm_num, by simp⟩

/-- Without a "close" key the Bollinger branch is a no-op: the default
empty close list has length zero, so no vote is cast. -/
lemma bbBranch_no_close (d : List (String × PyVal)) (acc : ℤ × List String)
    (h : List.lookup "close" d = none) : bbBranch d acc = .ok acc := by
  rcases hlb : List.lookup "bb_lower" d with _ | lb
  · simp [bbBranch, hlb]
  · rcases hub : List.lookup "bb_upper" d with _ | ub
    · simp [bbBranch, hlb, hub]
    · simp [bbBranch, hlb, hub, h]

/-- When the dict has no "close" key, the strength accumulated by the
try-block is the sum of the three votes of the moving-average, RSI and
MACD branches. -/
lemma genSignalsCore_bound (d : List (String × PyVal))
    (h : List.lookup "close" d = none) (s : ℤ) (rs : List String)
    (hcore : genSignalsCore d = .ok (s, rs)) :
    ∃ m r c : ℤ, m.natAbs ≤ 1 ∧ r.natAbs ≤ 1 ∧ c.natAbs ≤ 1 ∧ s = m + r + c := by
  unfold genSignalsCore at hcore
  split at hcore
  · cases hcore
  rename_i a1 h1
  split at hcore
  · cases hcore
  rename_i a2 h2
  split at hcore
  · cases hcore
  rename_i a3 h3
  rw [bbBranch_no_close d a3 h] at hcore
  injection hcore with h4
  subst h4
  obtain ⟨m, hm, hm2⟩ := maBranch_bound d (0, []) a1 h1
  obtain ⟨r, hr, hr2⟩ := rsiBranch_bound d a1 a2 h2
  obtain ⟨c, hc, hc2⟩ := macdBranch_bound d a2 (s, rs) h3
  refine ⟨m, r, c, hm, hr, hc, ?_⟩
  simp only at hm2 hr2 hc2
  omega

/-- For any dict without a "close" key, `generate_signals` returns a
strength that decomposes into the three at-most-unit votes (the empty and
error fallbacks return strength 0). -/
lemma genSignals_decomp (d : List (String × PyVal))
    (h : List.lookup "close" d = none) :
    ∃ m r c : ℤ, m.natAbs ≤ 1 ∧ r.natAbs ≤ 1 ∧ c.natAbs ≤ 1 ∧
      (generate_signals d).2.1 = m + r + c := by
  by_cases hd : d.isEmpty
  · exact ⟨0, 0, 0, by norm_num, by norm_num, by norm_num,
      by simp [generate_signals, hd]⟩
  · rcases hcore : genSignalsCore d with e | sr
    · exact ⟨0, 0, 0, by norm_num, by norm_num, by norm_num,
        by simp [generate_signals, hd, hcore]⟩
    · obtain ⟨s, rs⟩ := sr
      obtain ⟨m, r, c, hm, hr, hc, hs⟩ := genSignalsCore_bound d h s rs hcore
      exact ⟨m, r, c, hm, hr, hc,
        by simp [generate_signals, hd, hcore, hs]⟩

/-- C10: the dict returned by `analyze_stock` of analysis.py never has
the key "close", so the Bollinger branch of `generate_signals` casts no
vote: the returned strength is the sum of at most the moving-average, RSI
and MACD votes and lies between -3 and 3. -/
theorem c10_signals_strength : ∀ closes : List ℚ,
    List.lookup "close" (analyze_stock_pd closes) = none ∧
    ∃ m r c : ℤ, m.natAbs ≤ 1 ∧ r.natAbs ≤ 1 ∧ c.natAbs ≤ 1 ∧
      (generate_signals (analyze_stock_pd closes)).2.1 = m + r + c ∧
      -3 ≤ (generate_signals (analyze_stock_pd closes)).2.1 ∧
      (generate_signals (analyze_stock_pd closes)).2.1 ≤ 3 := by
  intro closes
  have hclose := analyze_stock_pd_no_close closes
  refine ⟨hclose, ?_⟩
  obtain ⟨m, r, c, hm, hr, hc, hsum⟩ := genSignals_decomp _ hclose
  exact ⟨m, r, c, hm, hr, hc, hsum, by omega, by omega⟩
